import Mathlib

/-!
Verification of the Adaptive Study Scheduling & Progress Analytics Engine
(`streamlit_dashboard/app.py`), against its specification.

Shallow embedding conventions:
* Dates are integers counting days relative to "today" (today = 0), so
  `days_left = exam_date - today` is the `examDate` offset itself.
* Unit names, subjects and problem ids are natural numbers.  The pandas
  `groupby("単元")` sorts group keys ascending; we reproduce that ordering on
  the `Nat` keys.  The display translation `dt` is injective on unit keys and
  is modelled as the identity.
* The `ミス` column is `(正誤 == "✕").astype(int)`, recorded per row in the
  `miss` field; `学習投入時間(分)` is `studyMinutes`.
* Ratio arithmetic (accuracy, priority, regression) is exact over `ℚ`.
-/

namespace StudyDash

/-- One row of the attempt log `df` as consumed by
`generate_weekly_study_plan` (columns 日付, 単元, 科目, ミス, 学習投入時間(分)). -/
structure LogRow where
  date : Int
  unitName : Nat
  subject : Nat
  miss : Nat
  studyMinutes : Nat
deriving DecidableEq, Repr

/-! ### Weakness ranker (app.py lines 224–231)

`df.groupby("単元").agg({"ミス": ["sum","count"]})` produces, per unit key in
ascending key order, the miss sum and the row count; then
`正答率 = (試行回数 - ミス数) / 試行回数`, `優先度 = (1 - 正答率) * 試行回数`,
and `sort_values("優先度", ascending=False)` (default `kind`: quicksort, so
the relative order of tied priorities is implementation-defined). -/

/-- Row count of the unit's group (`count` aggregate, 試行回数). -/
def attemptsOf (df : List LogRow) (u : Nat) : Nat :=
  (df.filter (fun r => r.unitName = u)).length

/-- Miss sum of the unit's group (`sum` aggregate, ミス数). -/
def missesOf (df : List LogRow) (u : Nat) : Nat :=
  ((df.filter (fun r => r.unitName = u)).map (·.miss)).sum

/-- 正答率 = (試行回数 - ミス数) / 試行回数, exact over ℚ. -/
def accuracyOf (df : List LogRow) (u : Nat) : ℚ :=
  ((attemptsOf df u : ℚ) - (missesOf df u : ℚ)) / (attemptsOf df u : ℚ)

/-- 優先度 = (1 - 正答率) * 試行回数. -/
def priorityOf (df : List LogRow) (u : Nat) : ℚ :=
  (1 - accuracyOf df u) * (attemptsOf df u : ℚ)

/-- Stable ascending insertion for the groupby key order. -/
def insertLe (a : Nat) : List Nat → List Nat
  | [] => [a]
  | b :: l => if a ≤ b then a :: b :: l else b :: insertLe a l

/-- Ascending sort of the group keys (pandas `groupby` sorts keys). -/
def sortNat : List Nat → List Nat
  | [] => []
  | a :: l => insertLe a (sortNat l)

/-- Unit keys of the groupby output, ascending — the "original ordering" fed
into the priority sort. -/
def groupKeys (df : List LogRow) : List Nat :=
  sortNat ((df.map (·.unitName)).dedup)

/-- Descending insertion by a rational key: an element is inserted after
every element with a strictly larger key. -/
def insertByDesc (key : Nat → ℚ) (a : Nat) : List Nat → List Nat
  | [] => [a]
  | b :: l => if key a < key b then b :: insertByDesc key a l else a :: b :: l

/-- Descending sort by a rational key, modelling
`sort_values("優先度", ascending=False)`.  The pandas default quicksort does
not specify the relative order of tied keys, so this model fixes one
deterministic representative order; the planner properties proved below
depend on the weak list only through permutation-invariant facts (its
length and concrete tie-free evaluations). -/
def sortByDesc (key : Nat → ℚ) : List Nat → List Nat
  | [] => []
  | a :: l => insertByDesc key a (sortByDesc key l)

/-- The ranked weak list: unit keys sorted by 優先度 descending (the
program leaves tie order unspecified; this model picks a representative). -/
def weakList (df : List LogRow) : List Nat :=
  sortByDesc (priorityOf df) (groupKeys df)

/-- The `type` tag attached to a planned unit: 完了 for past replay,
復習 (plan_review) / 弱点 (plan_weakness) / 演習 (study) for future packing. -/
inductive PlanType where
  | completed
  | review
  | weakness
  | study
deriving DecidableEq, Repr

/-- One entry of a day's `units` list. -/
structure PlannedUnit where
  name : Nat
  ptype : PlanType
  subject : Nat
deriving DecidableEq, Repr

/-- One value of the `weekly_plan` dict: the day's unit list and
`time_minutes`. -/
structure DayPlan where
  units : List PlannedUnit
  timeMinutes : Nat
deriving DecidableEq, Repr

/-- `unit_time_mins = 20`, the assumed minutes per unit. -/
def unitTimeMins : Nat := 20

/-- The Ebbinghaus offsets `review_intervals = [1, 3, 7, 14, 30]`. -/
def reviewIntervals : List Int := [1, 3, 7, 14, 30]

/-- `df[df["date_obj"] == past_date]["単元"].unique()`. -/
def studiedOn (df : List LogRow) (d : Int) : List Nat :=
  ((df.filter (fun r => r.date = d)).map (·.unitName)).dedup

/-- The deduplicated union of units studied at each review offset before
`targetDate` (the `review_units` set for that date). -/
def reviewUnitsFor (df : List LogRow) (targetDate : Int) : List Nat :=
  ((reviewIntervals.map (fun iv => studiedOn df (targetDate - iv))).flatten).dedup

/-- `review_candidates` holds entries only for
`day in range(min(7, days_left))`; every other date looks up to `[]`. -/
def reviewsFor (df : List LogRow) (daysLeft day : Int) : List Nat :=
  if day < min 7 daysLeft then reviewUnitsFor df day else []

/-- `df[df["単元"] == unit]["科目"].iloc[0]` (the fallback strings 復習/弱点/演習
are only reachable when the unit has no log row, which packing never passes). -/
def subjectOf (df : List LogRow) (u : Nat) : Nat :=
  match df.find? (fun r => r.unitName = u) with
  | some r => r.subject
  | none => 0

/-- Pass A: add review-due units while they fit the budget (no
already-present check in the source; the review list is deduplicated). -/
def addReviews (df : List LogRow) (limit : Nat) :
    List Nat → List PlannedUnit → Nat → List PlannedUnit × Nat
  | [], units, time => (units, time)
  | u :: rest, units, time =>
    if time + unitTimeMins ≤ limit then
      addReviews df limit rest (units ++ [⟨u, .review, subjectOf df u⟩])
        (time + unitTimeMins)
    else addReviews df limit rest units time

/-- Pass B: walk the weak list while the budget holds, skipping units already
present; returns the unconsumed tail (`weak_idx` continues into pass C). -/
def addWeak (df : List LogRow) (limit : Nat) :
    List Nat → List PlannedUnit → Nat → List PlannedUnit × Nat × List Nat
  | [], units, time => (units, time, [])
  | u :: rest, units, time =>
    if time + unitTimeMins ≤ limit then
      if units.any (fun p => p.name = u) then addWeak df limit rest units time
      else
        addWeak df limit rest (units ++ [⟨u, .weakness, subjectOf df u⟩])
          (time + unitTimeMins)
    else (units, time, u :: rest)

/-- Pass C: continue down the remaining weak list with type 演習 (study),
same loop conditions as pass B. -/
def addFill (df : List LogRow) (limit : Nat) :
    List Nat → List PlannedUnit → Nat → List PlannedUnit × Nat
  | [], units, time => (units, time)
  | u :: rest, units, time =>
    if time + unitTimeMins ≤ limit then
      if units.any (fun p => p.name = u) then addFill df limit rest units time
      else
        addFill df limit rest (units ++ [⟨u, .study, subjectOf df u⟩])
          (time + unitTimeMins)
    else (units, time)

/-- Pass D, the minimum guarantee: if the day is still empty and the weak
list is not, force-add its head regardless of the budget. -/
def minGuarantee (df : List LogRow) (weak : List Nat)
    (units : List PlannedUnit) (time : Nat) : List PlannedUnit × Nat :=
  match units, weak with
  | [], w :: _ => ([⟨w, .weakness, subjectOf df w⟩], time + unitTimeMins)
  | us, _ => (us, time)

/-- A future day's plan: passes A–D in source order. -/
def futureDayPlan (df : List LogRow) (limit : Nat) (weak reviews : List Nat) :
    DayPlan :=
  let s1 := addReviews df limit reviews [] 0
  let s2 := addWeak df limit weak s1.1 s1.2
  let s3 := addFill df limit s2.2.2 s2.1 s2.2.1
  let s4 := minGuarantee df weak s3.1 s3.2
  ⟨s4.1, s4.2⟩

/-- A past day's plan: replay the day's log rows, deduplicating unit names
and summing 学習投入時間(分) only for rows actually added. -/
def pastDayPlan (df : List LogRow) (date : Int) : DayPlan :=
  let s := (df.filter (fun r => r.date = date)).foldl
    (fun (acc : List PlannedUnit × Nat) r =>
      if acc.1.any (fun p => p.name = r.unitName) then acc
      else (acc.1 ++ [⟨r.unitName, .completed, r.subject⟩],
            acc.2 + r.studyMinutes))
    ([], 0)
  ⟨s.1, s.2⟩

/-- The emitted dates: `range(start_day, end_day)` with `start_day = -7` and
`end_day = min(28, days_left + 1)`. -/
def planDates (daysLeft : Int) : List Int :=
  (List.range (min 28 (daysLeft + 1) + 7).toNat).map
    (fun n : Nat => (n : Int) - 7)

/-- Dispatch on past (log replay) versus future (packing). -/
def dayPlanFor (df : List LogRow) (limit : Nat) (daysLeft day : Int) : DayPlan :=
  if day < 0 then pastDayPlan df day
  else futureDayPlan df limit (weakList df) (reviewsFor df daysLeft day)

/-- `generate_weekly_study_plan` (app.py 186–317).  `examDate` is the exam
date as an offset from today, so the offset itself is `days_left`; the daily
budget `daily_limit_mins` comes from session state and is passed explicitly.
Every date in range is emitted (empty days carry `{"units": [], 0}`). -/
def generate_weekly_study_plan (df : List LogRow) (examDate : Option Int)
    (limit : Nat) : Option (List (Int × DayPlan)) :=
  match examDate with
  | none => none
  | some daysLeft =>
    if daysLeft < 0 then none
    else if df = [] then none
    else some ((planDates daysLeft).map
      (fun d => (d, dayPlanFor df limit daysLeft d)))

/-! ### Planner lemmas -/

/-- A successful plan forces `days_left ≥ 0`, a nonempty log, and exposes the
plan as the map over the emitted dates. -/
theorem gen_eq_some {df : List LogRow} {limit : Nat} {d : Int}
    {m : List (Int × DayPlan)}
    (hm : generate_weekly_study_plan df (some d) limit = some m) :
    ¬d < 0 ∧ df ≠ [] ∧
      m = (planDates d).map (fun x => (x, dayPlanFor df limit d x)) := by
  simp only [generate_weekly_study_plan] at hm
  split_ifs at hm with h1 h2
  exact ⟨h1, h2, (Option.some_inj.mp hm).symm⟩

theorem addReviews_time_le (df : List LogRow) (limit : Nat) :
    ∀ (l : List Nat) (units : List PlannedUnit) (time : Nat),
      time ≤ limit → (addReviews df limit l units time).2 ≤ limit
  | [], _, _, h => h
  | u :: rest, units, time, h => by
    rw [addReviews]
    by_cases hf : time + unitTimeMins ≤ limit
    · rw [if_pos hf]
      exact addReviews_time_le df limit rest _ _ hf
    · rw [if_neg hf]
      exact addReviews_time_le df limit rest _ _ h

theorem addWeak_time_le (df : List LogRow) (limit : Nat) :
    ∀ (l : List Nat) (units : List PlannedUnit) (time : Nat),
      time ≤ limit → (addWeak df limit l units time).2.1 ≤ limit
  | [], _, _, h => h
  | u :: rest, units, time, h => by
    rw [addWeak]
    by_cases hf : time + unitTimeMins ≤ limit
    · rw [if_pos hf]
      by_cases hp : units.any (fun p => p.name = u)
      · rw [if_pos hp]
        exact addWeak_time_le df limit rest _ _ h
      · rw [if_neg hp]
        exact addWeak_time_le df limit rest _ _ hf
    · rw [if_neg hf]
      exact h

theorem addFill_time_le (df : List LogRow) (limit : Nat) :
    ∀ (l : List Nat) (units : List PlannedUnit) (time : Nat),
      time ≤ limit → (addFill df limit l units time).2 ≤ limit
  | [], _, _, h => h
  | u :: rest, units, time, h => by
    rw [addFill]
    by_cases hf : time + unitTimeMins ≤ limit
    · rw [if_pos hf]
      by_cases hp : units.any (fun p => p.name = u)
      · rw [if_pos hp]
        exact addFill_time_le df limit rest _ _ h
      · rw [if_neg hp]
        exact addFill_time_le df limit rest _ _ hf
    · rw [if_neg hf]
      exact h

theorem minGuarantee_bound (df : List LogRow) (weak : List Nat)
    (us : List PlannedUnit) (t limit : Nat) (h : t ≤ limit) :
    (minGuarantee df weak us t).2 ≤ limit ∨
      (minGuarantee df weak us t).1.length = 1 := by
  cases us with
  | nil =>
    cases weak with
    | nil => exact Or.inl h
    | cons w ws => exact Or.inr rfl
  | cons a l => exact Or.inl h

/-- A packed future day either respects the budget or is the
minimum-guarantee singleton. -/
theorem futureDayPlan_bound (df : List LogRow) (limit : Nat)
    (weak reviews : List Nat) :
    (futureDayPlan df limit weak reviews).timeMinutes ≤ limit ∨
      (futureDayPlan df limit weak reviews).units.length = 1 := by
  dsimp only [futureDayPlan]
  exact minGuarantee_bound _ _ _ _ _
    (addFill_time_le _ _ _ _ _
      (addWeak_time_le _ _ _ _ _
        (addReviews_time_le _ _ _ _ _ (Nat.zero_le _))))

/-- A plan member is the day plan computed for its date. -/
theorem mem_plan_eq {df : List LogRow} {limit : Nat} {d : Int}
    {m : List (Int × DayPlan)} {day : Int} {p : DayPlan}
    (hm : generate_weekly_study_plan df (some d) limit = some m)
    (hp : (day, p) ∈ m) : p = dayPlanFor df limit d day := by
  obtain ⟨-, -, rfl⟩ := gen_eq_some hm
  obtain ⟨day', hd', heq⟩ := List.mem_map.mp hp
  rw [Prod.mk.injEq] at heq
  obtain ⟨rfl, rfl⟩ := heq
  rfl

theorem addReviews_names_sublist (df : List LogRow) (limit : Nat) :
    ∀ (l : List Nat) (units : List PlannedUnit) (time : Nat),
      ((addReviews df limit l units time).1.map (·.name)).Sublist
        (units.map (·.name) ++ l)
  | [], units, time => by
    rw [addReviews]
    simp
  | u :: rest, units, time => by
    rw [addReviews]
    by_cases hf : time + unitTimeMins ≤ limit
    · rw [if_pos hf]
      have ih := addReviews_names_sublist df limit rest
        (units ++ [⟨u, .review, subjectOf df u⟩]) (time + unitTimeMins)
      simpa [List.map_append, List.append_assoc] using ih
    · rw [if_neg hf]
      exact (addReviews_names_sublist df limit rest units time).trans
        (List.Sublist.append_left (List.sublist_cons_self u rest) _)

theorem addWeak_names_nodup (df : List LogRow) (limit : Nat) :
    ∀ (l : List Nat) (units : List PlannedUnit) (time : Nat),
      (units.map (·.name)).Nodup →
      ((addWeak df limit l units time).1.map (·.name)).Nodup
  | [], _, _, h => h
  | u :: rest, units, time, h => by
    rw [addWeak]
    by_cases hf : time + unitTimeMins ≤ limit
    · rw [if_pos hf]
      by_cases hp : units.any (fun p => p.name = u)
      · rw [if_pos hp]
        exact addWeak_names_nodup df limit rest _ _ h
      · rw [if_neg hp]
        apply addWeak_names_nodup df limit rest _ _
        rw [List.map_append]
        refine List.Nodup.append h (List.nodup_singleton _) ?_
        intro x hx hxu
        simp only [List.map_cons, List.map_nil, List.mem_singleton] at hxu
        subst hxu
        obtain ⟨q, hqmem, hqname⟩ := List.mem_map.mp hx
        exact hp (List.any_eq_true.mpr ⟨q, hqmem, by simp [hqname]⟩)
    · rw [if_neg hf]
      exact h

theorem addFill_names_nodup (df : List LogRow) (limit : Nat) :
    ∀ (l : List Nat) (units : List PlannedUnit) (time : Nat),
      (units.map (·.name)).Nodup →
      ((addFill df limit l units time).1.map (·.name)).Nodup
  | [], _, _, h => h
  | u :: rest, units, time, h => by
    rw [addFill]
    by_cases hf : time + unitTimeMins ≤ limit
    · rw [if_pos hf]
      by_cases hp : units.any (fun p => p.name = u)
      · rw [if_pos hp]
        exact addFill_names_nodup df limit rest _ _ h
      · rw [if_neg hp]
        apply addFill_names_nodup df limit rest _ _
        rw [List.map_append]
        refine List.Nodup.append h (List.nodup_singleton _) ?_
        intro x hx hxu
        simp only [List.map_cons, List.map_nil, List.mem_singleton] at hxu
        subst hxu
        obtain ⟨q, hqmem, hqname⟩ := List.mem_map.mp hx
        exact hp (List.any_eq_true.mpr ⟨q, hqmem, by simp [hqname]⟩)
    · rw [if_neg hf]
      exact h

theorem minGuarantee_names_nodup (df : List LogRow) (weak : List Nat)
    (us : List PlannedUnit) (t : Nat) (h : (us.map (·.name)).Nodup) :
    ((minGuarantee df weak us t).1.map (·.name)).Nodup := by
  cases us with
  | nil =>
    cases weak with
    | nil => simp [minGuarantee]
    | cons w ws => simp [minGuarantee]
  | cons a l => simpa [minGuarantee] using h

/-! ### Claim theorems for the planner -/

/-- Log for several witnesses: one attempt on unit 0 today. -/
def dfC2w : List LogRow := [⟨0, 0, 0, 0, 20⟩]

/-- The plan generated from `dfC2w` with `days_left = 0`, budget 60. -/
def planC2w : List (Int × DayPlan) :=
  (generate_weekly_study_plan dfC2w (some 0) 60).getD []

/-- C7: the planner returns `none` — not an empty or partial plan — whenever
the exam date is strictly past (`days_left < 0`) or the attempt log is empty,
for every remaining input. -/
theorem claim_C7_no_plan (df : List LogRow) (ed : Option Int) (d : Int)
    (limit : Nat) :
    (d < 0 → generate_weekly_study_plan df (some d) limit = none) ∧
    (df = [] → generate_weekly_study_plan df ed limit = none) := by
  constructor
  · intro h
    simp only [generate_weekly_study_plan, if_pos h]
  · intro h
    subst h
    cases ed with
    | none => rfl
    | some dl => simp [generate_weekly_study_plan]

theorem claim_C7_witness :
    generate_weekly_study_plan [(⟨0, 1, 0, 0, 20⟩ : LogRow)] (some (-1)) 60
        = none ∧
      generate_weekly_study_plan [] (some 5) 60 = none :=
  ⟨(claim_C7_no_plan [⟨0, 1, 0, 0, 20⟩] (some (-1)) (-1) 60).1 (by decide),
   (claim_C7_no_plan [] (some 5) 5 60).2 rfl⟩

/-- Log refuting C2 as stated: two units studied yesterday, 100 minutes
each, against a 60-minute budget. -/
def dfC2 : List LogRow := [⟨-1, 0, 0, 0, 100⟩, ⟨-1, 1, 0, 0, 100⟩]

/-- The plan generated from `dfC2` with `days_left = 0`, budget 60. -/
def planC2 : List (Int × DayPlan) :=
  (generate_weekly_study_plan dfC2 (some 0) 60).getD []

/-- C2 counterexample: the past-replay day −1 has two units and
`total_minutes = 200 > 60`, so it exceeds the budget without being a
minimum-guarantee day (which would have exactly one unit). -/
theorem claim_C2_counterexample :
    List.lookup (-1 : Int) planC2 =
      some ⟨[⟨0, PlanType.completed, 0⟩, ⟨1, PlanType.completed, 0⟩], 200⟩ ∧
    ¬(200 ≤ 60) ∧
    ([(⟨0, PlanType.completed, 0⟩ : PlannedUnit),
      ⟨1, PlanType.completed, 0⟩].length ≠ 1) := by
  with_unfolding_all decide

/-- C2 amended: the budget bound holds for every **future** packed day —
`total_minutes ≤ daily_limit` or the day is the minimum-guarantee singleton —
while past-replay days report the summed logged minutes, which may exceed the
limit. -/
theorem claim_C2_amended (df : List LogRow) (limit : Nat) (d : Int)
    (m : List (Int × DayPlan)) (day : Int) (p : DayPlan)
    (hm : generate_weekly_study_plan df (some d) limit = some m)
    (hp : (day, p) ∈ m) (hday : 0 ≤ day) :
    p.timeMinutes ≤ limit ∨ p.units.length = 1 := by
  obtain rfl := mem_plan_eq hm hp
  rw [dayPlanFor, if_neg (not_lt.mpr hday)]
  exact futureDayPlan_bound df limit (weakList df) (reviewsFor df d day)

theorem claim_C2_witness :
    (⟨[⟨0, PlanType.weakness, 0⟩], 20⟩ : DayPlan).timeMinutes ≤ 60 ∨
      (⟨[⟨0, PlanType.weakness, 0⟩], 20⟩ : DayPlan).units.length = 1 :=
  claim_C2_amended dfC2w 60 0 planC2w 0 ⟨[⟨0, PlanType.weakness, 0⟩], 20⟩
    (by with_unfolding_all decide) (by with_unfolding_all decide) (by decide)

/-- C10: within any future day plan no unit name repeats — pass A receives a
deduplicated review set, passes B and C skip units already present, and the
minimum guarantee only fires on an empty day. -/
theorem claim_C10_no_duplicate_units (df : List LogRow) (limit : Nat)
    (d : Int) (m : List (Int × DayPlan)) (day : Int) (p : DayPlan)
    (hm : generate_weekly_study_plan df (some d) limit = some m)
    (hp : (day, p) ∈ m) (hday : 0 ≤ day) :
    (p.units.map (·.name)).Nodup := by
  obtain rfl := mem_plan_eq hm hp
  rw [dayPlanFor, if_neg (not_lt.mpr hday)]
  dsimp only [futureDayPlan]
  apply minGuarantee_names_nodup
  apply addFill_names_nodup
  apply addWeak_names_nodup
  have hs := addReviews_names_sublist df limit (reviewsFor df d day) [] 0
  have hnd : (reviewsFor df d day).Nodup := by
    rw [reviewsFor]
    split_ifs
    · exact List.nodup_dedup _
    · exact List.nodup_nil
  exact List.Nodup.sublist (by simpa using hs) hnd

theorem claim_C10_witness :
    (([⟨0, PlanType.weakness, 0⟩] : List PlannedUnit).map (·.name)).Nodup :=
  claim_C10_no_duplicate_units dfC2w 60 0 planC2w 0
    ⟨[⟨0, PlanType.weakness, 0⟩], 20⟩ (by with_unfolding_all decide)
    (by with_unfolding_all decide) (by decide)

/-- Log for C1: exactly one attempt, on unit 5 (subject 3), on day 0. -/
def dfC1 : List LogRow := [⟨0, 5, 3, 0, 30⟩]

/-- The C1 plan: exam in 30 days, a 1000-minute budget that never binds. -/
def planC1 : List (Int × DayPlan) :=
  (generate_weekly_study_plan dfC1 (some 30) 1000).getD []

/-- C1 counterexample: days 7 and 14 are inside the planning horizon yet
carry unit 5 only with origin=weakness, never origin=review (the
review-candidate loop covers only the first `min(7, days_left)` days), and
day 30 lies beyond the horizon altogether. -/
theorem claim_C1_counterexample :
    List.lookup (7 : Int) planC1 =
      some ⟨[⟨5, PlanType.weakness, 3⟩], 20⟩ ∧
    List.lookup (14 : Int) planC1 =
      some ⟨[⟨5, PlanType.weakness, 3⟩], 20⟩ ∧
    List.lookup (30 : Int) planC1 = none := by
  with_unfolding_all decide

/-- C1 amended: with a single attempt on unit 5 on day 0 and a large budget,
origin=review appears exactly on days 1 and 3; days 2, 4, 5 and 6 carry the
unit only as origin=weakness; days 7 and 14, though within the horizon, get
no review entry because review candidates exist only for the first
`min(7, days_left)` future days; day 30 is outside the emitted horizon. -/
theorem claim_C1_amended :
    List.lookup (1 : Int) planC1 = some ⟨[⟨5, PlanType.review, 3⟩], 20⟩ ∧
    List.lookup (3 : Int) planC1 = some ⟨[⟨5, PlanType.review, 3⟩], 20⟩ ∧
    List.lookup (2 : Int) planC1 = some ⟨[⟨5, PlanType.weakness, 3⟩], 20⟩ ∧
    List.lookup (4 : Int) planC1 = some ⟨[⟨5, PlanType.weakness, 3⟩], 20⟩ ∧
    List.lookup (5 : Int) planC1 = some ⟨[⟨5, PlanType.weakness, 3⟩], 20⟩ ∧
    List.lookup (6 : Int) planC1 = some ⟨[⟨5, PlanType.weakness, 3⟩], 20⟩ ∧
    List.lookup (7 : Int) planC1 = some ⟨[⟨5, PlanType.weakness, 3⟩], 20⟩ ∧
    List.lookup (14 : Int) planC1 = some ⟨[⟨5, PlanType.weakness, 3⟩], 20⟩ ∧
    List.lookup (30 : Int) planC1 = none := by
  with_unfolding_all decide

/-! ### Tier progression (`generate_study_roadmap_detailed`, app.py 872–1021) -/

/-- 難易度 ∈ {低, 中, 高}. -/
inductive Tier where
  | low
  | mid
  | high
deriving DecidableEq, Repr

/-- One catalog row of `df_master` (問題ID, 科目, 単元, 難易度). -/
structure MasterRow where
  pid : Nat
  subject : Nat
  unitName : Nat
  tier : Tier
deriving DecidableEq, Repr

/-- One attempt-log row as consumed by the roadmap (問題ID, 正誤 == 〇). -/
structure AttemptRow where
  pid : Nat
  correct : Bool
deriving DecidableEq, Repr

/-- 難易度 of an attempt via the left join on 問題ID (`none` = unmatched row,
dropped by the 難易度-notna filter). -/
def tierOfPid (master : List MasterRow) (p : Nat) : Option Tier :=
  (master.find? (fun mr => mr.pid = p)).map (·.tier)

/-- `diff_data`: the merged rows whose 難易度 equals the tier. -/
def mergedAt (df : List AttemptRow) (master : List MasterRow) (t : Tier) :
    List AttemptRow :=
  df.filter (fun a => tierOfPid master a.pid = some t)

/-- `attempts` for the tier (`total = len(diff_data)`). -/
def tierAttempts (df : List AttemptRow) (master : List MasterRow)
    (t : Tier) : Nat :=
  (mergedAt df master t).length

/-- `correct = (diff_data["正誤"] == "〇").sum()`. -/
def tierCorrect (df : List AttemptRow) (master : List MasterRow)
    (t : Tier) : Nat :=
  ((mergedAt df master t).filter (·.correct)).length

/-- `accuracy`: `correct / total` on a tier with data, `0` in the no-data
branch (app.py 906, 933). -/
def tierAccuracy (df : List AttemptRow) (master : List MasterRow)
    (t : Tier) : ℚ :=
  if tierAttempts df master t = 0 then 0
  else (tierCorrect df master t : ℚ) / (tierAttempts df master t : ℚ)

/-- Catalog problem count at the tier (`len(master_diff)`). -/
def tierTotal (master : List MasterRow) (t : Tier) : Nat :=
  (master.filter (fun mr => mr.tier = t)).length

/-- Distinct attempted problem ids at the tier (`solved`). -/
def tierSolved (df : List AttemptRow) (master : List MasterRow)
    (t : Tier) : Nat :=
  ((mergedAt df master t).map (·.pid)).dedup.length

/-- `coverage` percent: `solved/total*100` guarded by both the no-data branch
and the `total_problems_in_master > 0` check (app.py 911, 934). -/
def tierCoverage (df : List AttemptRow) (master : List MasterRow)
    (t : Tier) : ℚ :=
  if tierAttempts df master t = 0 then 0
  else if tierTotal master t = 0 then 0
  else (tierSolved df master t : ℚ) / (tierTotal master t : ℚ) * 100

/-- A tier is mastered iff accuracy ≥ 0.8 and coverage ≥ 70 (the condition of
app.py 944/946). -/
def tierMastered (df : List AttemptRow) (master : List MasterRow)
    (t : Tier) : Prop :=
  tierAccuracy df master t ≥ 0.8 ∧ tierCoverage df master t ≥ 70

instance (df : List AttemptRow) (master : List MasterRow) (t : Tier) :
    Decidable (tierMastered df master t) :=
  inferInstanceAs (Decidable (_ ∧ _))

/-- `current_phase` ∈ {基礎固め, 標準演習, 応用演習}. -/
inductive Phase where
  | basicConsolidation
  | standardPractice
  | advancedPractice
deriving DecidableEq, Repr

/-- Phase selection (app.py 939–954, 972–973): low not mastered → 基礎固め;
low mastered, mid not → 標準演習; both → 応用演習. -/
def currentPhase (df : List AttemptRow) (master : List MasterRow) : Phase :=
  if tierMastered df master .low then
    if tierMastered df master .mid then .advancedPractice
    else .standardPractice
  else .basicConsolidation

/-- Roadmap card status (app.py 1011–1013). -/
inductive TierStatus where
  | completed
  | inProgress
  | notStarted
deriving DecidableEq, Repr

/-- The status expression of app.py 1011–1013 as a function of a tier's
accuracy, coverage and attempt count. -/
def statusOf (acc cov : ℚ) (attempts : Nat) : TierStatus :=
  if acc ≥ 0.8 ∧ cov ≥ 70 then .completed
  else if attempts > 0 then .inProgress
  else .notStarted

/-- The status reported for a tier. -/
def tierStatus (df : List AttemptRow) (master : List MasterRow)
    (t : Tier) : TierStatus :=
  statusOf (tierAccuracy df master t) (tierCoverage df master t)
    (tierAttempts df master t)

/-- C4: for any attempt log and catalog, a tier is mastered exactly when its
accuracy ≥ 0.8 and its coverage ≥ 70, and the phase is 基礎固め iff low is not
mastered, 標準演習 iff low is mastered but mid is not, and 応用演習 iff both
are — so the phase is a function of low/mid mastery alone and high-tier
mastery never changes it. -/
theorem claim_C4_tier_progression (df : List AttemptRow)
    (master : List MasterRow) :
    (∀ t, tierMastered df master t ↔
      tierAccuracy df master t ≥ 0.8 ∧ tierCoverage df master t ≥ 70) ∧
    (currentPhase df master = .basicConsolidation ↔
      ¬tierMastered df master .low) ∧
    (currentPhase df master = .standardPractice ↔
      tierMastered df master .low ∧ ¬tierMastered df master .mid) ∧
    (currentPhase df master = .advancedPractice ↔
      tierMastered df master .low ∧ tierMastered df master .mid) := by
  refine ⟨fun t => Iff.rfl, ?_, ?_, ?_⟩ <;>
    · unfold currentPhase
      split_ifs with h1 h2 <;> simp_all

/-- Attempt-free tiers report accuracy 0, hence are never mastered. -/
theorem not_mastered_of_no_attempts (df : List AttemptRow)
    (master : List MasterRow) (t : Tier)
    (h0 : tierAttempts df master t = 0) : ¬tierMastered df master t := by
  intro hm
  rcases hm with ⟨hacc, -⟩
  rw [tierAccuracy, if_pos h0] at hacc
  norm_num at hacc

/-- C9: raising accuracy with coverage (and attempts) fixed, or coverage with
accuracy fixed, never moves a Completed tier to Not Started (it stays
Completed); moreover Completed coincides with mastered and, on the computed
stats, Not Started coincides with attempts = 0. -/
theorem claim_C9_mastery_monotonic :
    (∀ (a b c : ℚ) (n : Nat), statusOf a c n = .completed → a ≤ b →
      statusOf b c n = .completed ∧ statusOf b c n ≠ .notStarted) ∧
    (∀ (a c e : ℚ) (n : Nat), statusOf a c n = .completed → c ≤ e →
      statusOf a e n = .completed ∧ statusOf a e n ≠ .notStarted) ∧
    (∀ (df : List AttemptRow) (master : List MasterRow) (t : Tier),
      (tierStatus df master t = .completed ↔ tierMastered df master t) ∧
      (tierStatus df master t = .notStarted ↔
        tierAttempts df master t = 0)) := by
  refine ⟨?_, ?_, ?_⟩
  · intro a b c n hs hab
    have hc : a ≥ 0.8 ∧ c ≥ 70 := by
      by_contra hcon
      rw [statusOf, if_neg hcon] at hs
      split_ifs at hs
    have hc2 : b ≥ 0.8 ∧ c ≥ 70 := ⟨le_trans hc.1 hab, hc.2⟩
    rw [statusOf, if_pos hc2]
    exact ⟨rfl, by simp⟩
  · intro a c e n hs hce
    have hc : a ≥ 0.8 ∧ c ≥ 70 := by
      by_contra hcon
      rw [statusOf, if_neg hcon] at hs
      split_ifs at hs
    have hc2 : a ≥ 0.8 ∧ e ≥ 70 := ⟨hc.1, le_trans hc.2 hce⟩
    rw [statusOf, if_pos hc2]
    exact ⟨rfl, by simp⟩
  · intro df master t
    constructor
    · rw [tierStatus, statusOf]
      split_ifs with h1 h2 <;> simp_all [tierMastered]
    · rw [tierStatus, statusOf]
      split_ifs with h1 h2
      · have := not_mastered_of_no_attempts df master t
        simp_all [tierMastered]
      · simp_all
        omega
      · simp_all

theorem claim_C9_witness :
    statusOf (9 / 10) 80 5 = TierStatus.completed ∧
      statusOf (9 / 10) 80 5 ≠ TierStatus.notStarted :=
  claim_C9_mastery_monotonic.1 (8 / 10) (9 / 10) 80 5
    (by with_unfolding_all decide) (by with_unfolding_all decide)

/-! ### Trend forecaster (module-level prediction block, app.py 2729–2765)

`bd` is the per-day accuracy series (one ℚ value per day, oldest first),
`cor` is `cor_r` (current overall accuracy) and `tgt` is `tgt_r` (target
rate).  `np.polyfit(x, y, 1)` over `x = 0..n-1` is the ordinary
least-squares line, exact here over ℚ; `np.std(y) == 0` is exactly
"variance is 0". -/

/-- Arithmetic mean of the series. -/
def mean (y : List ℚ) : ℚ := y.sum / (y.length : ℚ)

/-- Population variance; zero exactly when every value equals the mean. -/
def variance (y : List ℚ) : ℚ :=
  ((y.map (fun v => (v - mean y) ^ 2)).sum) / (y.length : ℚ)

/-- `Σ x` over `x = 0..n-1`. -/
def sumX (n : Nat) : ℚ := ((List.range n).map (fun i : Nat => (i : ℚ))).sum

/-- `Σ x²` over `x = 0..n-1`. -/
def sumXX (n : Nat) : ℚ :=
  ((List.range n).map (fun i : Nat => (i : ℚ) ^ 2)).sum

/-- `Σ xᵢ yᵢ`. -/
def sumXY (y : List ℚ) : ℚ :=
  (((List.range y.length).zip y).map (fun p => (p.1 : ℚ) * p.2)).sum

/-- The least-squares slope of `np.polyfit(x, y, 1)`. -/
def slopeOf (y : List ℚ) : ℚ :=
  ((y.length : ℚ) * sumXY y - sumX y.length * y.sum) /
    ((y.length : ℚ) * sumXX y.length - sumX y.length ^ 2)

/-- The least-squares intercept, `ȳ - slope·x̄`. -/
def interceptOf (y : List ℚ) : ℚ :=
  (y.sum - slopeOf y * sumX y.length) / (y.length : ℚ)

/-- The outcome of the prediction block (`prediction_text` cases). -/
inductive Forecast where
  | insufficientData
  | noChange
  | achieved
  | noImprovement
  | closeToAchieving
  | overOneYear
  | predictedDate (daysFromToday : Int)
deriving DecidableEq, Repr

/-- The prediction branch chain (app.py 2729–2765).  The predicted date is
`today + int(days_remaining)` days; `int` truncates toward zero, which on
this branch (`0 < days_remaining ≤ 365`) is the floor. -/
def forecast (y : List ℚ) (cor tgt : ℚ) : Forecast :=
  if y.length < 3 then .insufficientData
  else if variance y = 0 then .noChange
  else if cor ≥ tgt then .achieved
  else if slopeOf y ≤ 1 / 1000 then .noImprovement
  else
    let rem := (tgt - interceptOf y) / slopeOf y - ((y.length : ℚ) - 1)
    if rem ≤ 0 then .closeToAchieving
    else if rem > 365 then .overOneYear
    else .predictedDate ⌊rem⌋

/-- C5: once the series has ≥ 3 points and a fitted slope exists (nonzero
variance), a current rate already at target reports achieved no matter the
slope's sign; and a constant series always reports the flat/no-change status
(the variance guard precedes everything else), never an error. -/
theorem claim_C5_achieved_and_flat :
    (∀ (y : List ℚ) (cor tgt : ℚ), 3 ≤ y.length → variance y ≠ 0 →
      cor ≥ tgt → forecast y cor tgt = .achieved) ∧
    (∀ (y : List ℚ) (cor tgt a : ℚ), 3 ≤ y.length → (∀ v ∈ y, v = a) →
      forecast y cor tgt = .noChange) := by
  constructor
  · intro y cor tgt h3 hv hc
    rw [forecast, if_neg (by omega), if_neg hv, if_pos hc]
  · intro y cor tgt a h3 hall
    have hn : (y.length : ℚ) ≠ 0 := Nat.cast_ne_zero.mpr (by omega)
    have hmean : mean y = a := by
      rw [mean, List.sum_eq_card_nsmul y a hall, nsmul_eq_mul,
        mul_div_cancel_left₀ a hn]
    have hvar : variance y = 0 := by
      have hz : (y.map (fun v => (v - mean y) ^ 2)).sum = 0 := by
        apply List.sum_eq_zero
        intro x hx
        obtain ⟨v, hv, rfl⟩ := List.mem_map.mp hx
        rw [hall v hv, hmean, sub_self]
        ring
      rw [variance, hz, zero_div]
    rw [forecast, if_neg (by omega), if_pos hvar]

theorem claim_C5_witness :
    forecast [0, 1 / 10, 2 / 10] (9 / 10) (8 / 10) = Forecast.achieved ∧
      forecast [1 / 2, 1 / 2, 1 / 2] 0 (8 / 10) = Forecast.noChange :=
  ⟨claim_C5_achieved_and_flat.1 [0, 1 / 10, 2 / 10] (9 / 10) (8 / 10)
      (by decide) (by with_unfolding_all decide) (by with_unfolding_all decide),
   claim_C5_achieved_and_flat.2 [1 / 2, 1 / 2, 1 / 2] 0 (8 / 10) (1 / 2)
      (by decide) (by with_unfolding_all decide)⟩

/-- C6: with ≥ 3 points, nonzero variance, current rate below target and
slope > 0.001, the block computes
`days_remaining = (target − intercept)/slope − (n−1)` and reports
close-to-achieving when it is ≤ 0, the over-one-year warning when it exceeds
365, and otherwise the date `today + ⌊days_remaining⌋` days. -/
theorem claim_C6_projection (y : List ℚ) (cor tgt : ℚ)
    (h3 : 3 ≤ y.length) (hv : variance y ≠ 0) (hc : cor < tgt)
    (hs : 1 / 1000 < slopeOf y) :
    ((tgt - interceptOf y) / slopeOf y - ((y.length : ℚ) - 1) ≤ 0 →
      forecast y cor tgt = .closeToAchieving) ∧
    (365 < (tgt - interceptOf y) / slopeOf y - ((y.length : ℚ) - 1) →
      forecast y cor tgt = .overOneYear) ∧
    (0 < (tgt - interceptOf y) / slopeOf y - ((y.length : ℚ) - 1) →
      (tgt - interceptOf y) / slopeOf y - ((y.length : ℚ) - 1) ≤ 365 →
      forecast y cor tgt = .predictedDate
        ⌊(tgt - interceptOf y) / slopeOf y - ((y.length : ℚ) - 1)⌋) := by
  rw [forecast]
  rw [if_neg (by omega), if_neg hv, if_neg (not_le.mpr hc),
    if_neg (not_le.mpr hs)]
  refine ⟨fun h0 => ?_, fun h365 => ?_, fun h0 h365 => ?_⟩
  · rw [if_pos h0]
  · rw [if_neg (not_le.mpr (lt_trans (by norm_num) h365)), if_pos h365]
  · rw [if_neg (not_le.mpr h0), if_neg (not_lt.mpr h365)]

theorem claim_C6_witness :
    forecast [0, 1 / 10, 2 / 10] (2 / 10) (8 / 10) =
      Forecast.predictedDate
        ⌊(8 / 10 - interceptOf [0, 1 / 10, 2 / 10]) /
            slopeOf [0, 1 / 10, 2 / 10] -
          ((([0, 1 / 10, 2 / 10] : List ℚ).length : ℚ) - 1)⌋ :=
  (claim_C6_projection [0, 1 / 10, 2 / 10] (2 / 10) (8 / 10) (by decide)
      (by with_unfolding_all decide) (by with_unfolding_all decide)
      (by with_unfolding_all decide)).2.2
    (by with_unfolding_all decide) (by with_unfolding_all decide)
